import Mathlib

/-!
Shallow embedding of the wykoj-judge judging core: src/judge.py and
src/verdict.py.  External effects (subprocess exit codes and outputs, the
metadata sidecar file contents, the task-info response) are supplied through
an explicit environment record; Python exceptions are modelled with the
Except monad; Python floats are modelled as exact rational numbers.
-/

namespace Wykoj

/-- Python exceptions that the embedded judging code can raise. -/
inductive PyError where
  | attributeError
  | valueError
  | keyError
  | httpError
deriving DecidableEq

/-- Embedding of class Verdict(str, Enum) from src/verdict.py.  Its members
are exactly AC, CE, WA, RE, TLE and IE: verdict.py defines no member named
SE, although judge.py refers to Verdict.SE in three places. -/
inductive Verdict where
  | AC
  | CE
  | WA
  | RE
  | TLE
  | IE
deriving DecidableEq

/-- Wire value of each Verdict member, from src/verdict.py lines 5-10. -/
def Verdict.value : Verdict → String
  | .AC => "ac"
  | .CE => "ce"
  | .WA => "wa"
  | .RE => "re"
  | .TLE => "tle"
  | .IE => "ie"

/-- The member table of the Verdict enum, in source order (src/verdict.py). -/
def verdictMembers : List (String × Verdict) :=
  [("AC", .AC), ("CE", .CE), ("WA", .WA), ("RE", .RE), ("TLE", .TLE), ("IE", .IE)]

/-- Python attribute access on the Verdict enum class: a lookup in the member
table that raises AttributeError when no member has the given name.  The
expression Verdict.SE in judge.py lines 55, 93 and 166 is embedded as
verdictAttr applied to the string SE. -/
def verdictAttr (name : String) : Except PyError Verdict :=
  match List.lookup name verdictMembers with
  | some v => .ok v
  | none => .error .attributeError

/-- Modelled from the spec: the language module is not under src.  judge.py
lines 100-117 branch on exactly these six language identifiers, matching the
per-language build/run dispatch of the spec. -/
inductive Language where
  | cpp
  | c
  | ocaml
  | pas
  | kt
  | py
deriving DecidableEq

/-- Whether judge.py builds a nonempty compile_args list for the language:
every branch of judge.py lines 100-117 except the py branch does. -/
def Language.hasCompile : Language → Bool
  | .py => false
  | _ => true

/-- Modelled from the spec: the task_info module is not under src.  One test
case, as constructed in get_task_info (judge.py lines 39-42); the expected
output is required since graders are out of scope. -/
structure TestCase where
  subtask : Int
  test_case : Int
  input : String
  output : String
deriving DecidableEq

/-- Modelled from the spec: the task_info module is not under src.  Task
information, as constructed in get_task_info (judge.py lines 34-42). -/
structure TaskInfo where
  time_limit : ℚ
  memory_limit : Int
  grader : Bool
  grader_source_code : Option String
  grader_language : Option String
  test_cases : List TestCase
deriving DecidableEq

/-- Modelled from the spec: the test_case_result module is not under src.
Fields as filled in by judge.py lines 168-174; the two float fields are
modelled as exact rationals. -/
structure TestCaseResult where
  subtask : Int
  test_case : Int
  verdict : Verdict
  score : ℚ
  time_used : ℚ
  memory_used : ℚ
deriving DecidableEq

/-- Return type of _judge_impl: Union[Verdict, List[TestCaseResult]]. -/
inductive JudgeResult where
  | verdict (v : Verdict)
  | results (l : List TestCaseResult)
deriving DecidableEq

/-- What one isolate --run invocation leaves behind: the captured stdout of
run_proc and the contents of the metadata sidecar file. -/
structure RunOutcome where
  stdout : String
  metadataFile : String
deriving DecidableEq

/-- Environment of one judging operation: everything the outside world
(subprocesses, filesystem, network) feeds into judge / _judge_impl.  The
file write of the submitted code and the copy into the sandbox are modelled
as succeeding. -/
structure JudgeEnv where
  initReturncode : Int
  initStdout : String
  compileReturncode : Int
  taskInfo : Except PyError TaskInfo
  runs : Nat → RunOutcome
  cleanupReturncode : Int

/-- Observable actions of one judging operation, in program order. -/
inductive Event where
  | writeCode
  | initCall
  | compileCall
  | copyToSandbox
  | fetchTaskInfo
  | runTest (i : Nat)
  | cleanupCall
deriving DecidableEq

/-- The debug task-info fixture hard-coded in get_task_info
(judge.py lines 19-26). -/
def debugTaskInfo : TaskInfo :=
  { time_limit := 1
    memory_limit := 256
    grader := false
    grader_source_code := none
    grader_language := none
    test_cases :=
      [ ⟨1, 1, "1 1\n", "Quadrant I\n"⟩
      , ⟨1, 2, "-50 -33\n", "Quadrant III\n"⟩
      , ⟨1, 3, "94 -87\n", "Quadrant IV\n"⟩
      , ⟨1, 4, "-100 100\n", "Quadrant II\n"⟩
      , ⟨1, 5, "0 -24\n", "None\n"⟩
      , ⟨1, 6, "66 0\n", "None\n"⟩
      , ⟨1, 7, "0 0\n", "None\n"⟩ ] }

/-- Drop the leading run of whitespace characters. -/
def dropWhileWs : List Char → List Char
  | [] => []
  | c :: cs => if c.isWhitespace then dropWhileWs cs else c :: cs

/-- Strip leading and trailing whitespace from a character list. -/
def stripChars (cs : List Char) : List Char :=
  (dropWhileWs (dropWhileWs cs).reverse).reverse

/-- Embedding of the Python strip method with no argument: remove leading
and trailing whitespace (ASCII whitespace modelled). -/
def pyStrip (s : String) : String :=
  ⟨stripChars s.data⟩

/-- Embedding of the Python split method with a one-character separator:
the list of chunks between occurrences of the separator; the empty input
yields one empty chunk, as in Python. -/
def splitOnSep (sep : Char) : List Char → List (List Char)
  | [] => [[]]
  | c :: rest =>
    if c = sep then [] :: splitOnSep sep rest
    else
      match splitOnSep sep rest with
      | [] => [[c]]
      | h :: t => (c :: h) :: t

/-- The lines of the file contents, as read by the readlines call of
judge.py line 150: split the contents on the newline character (each line
is then stripped by the parse loop exactly as the source strips the
terminator). -/
def readLines (content : String) : List String :=
  (splitOnSep (Char.ofNat 10) content.data).map (fun cs => (⟨cs⟩ : String))

/-- Numeric value of a list of decimal digit characters. -/
def natOfDigits (cs : List Char) : Nat :=
  cs.foldl (fun a c => a * 10 + (c.toNat - 48)) 0

/-- Split a character list into its leading run of decimal digits and the
rest. -/
def spanDigits (cs : List Char) : List Char × List Char :=
  (cs.takeWhile Char.isDigit, cs.dropWhile Char.isDigit)

/-- Parse an optional leading sign; returns whether the number is negative
and the remaining characters. -/
def parseSign : List Char → Bool × List Char
  | '+' :: cs => (false, cs)
  | '-' :: cs => (true, cs)
  | cs => (false, cs)

/-- Parse the mantissa of a Python float literal: digits, optionally with a
decimal point, at least one digit overall.  The value is returned as a pair
of an integer numerator and the number of fraction digits: the mantissa
denotes numerator divided by ten to that power. -/
def parseMantissa (cs : List Char) : Option ((Nat × Nat) × List Char) :=
  let s1 := spanDigits cs
  match s1.2 with
  | '.' :: r2 =>
    let s2 := spanDigits r2
    if s1.1 = [] ∧ s2.1 = [] then none
    else some ((natOfDigits s1.1 * 10 ^ s2.1.length + natOfDigits s2.1, s2.1.length), s2.2)
  | _ => if s1.1 = [] then none else some ((natOfDigits s1.1, 0), s1.2)

/-- Parse an optional exponent part of a Python float literal. -/
def parseExponent (cs : List Char) : Option (Int × List Char) :=
  match cs with
  | 'e' :: r | 'E' :: r =>
    let s1 := parseSign r
    let s2 := spanDigits s1.2
    if s2.1 = [] then none
    else some ((if s1.1 then -(natOfDigits s2.1 : Int) else (natOfDigits s2.1 : Int)), s2.2)
  | _ => some (0, cs)

/-- The rational value of a parsed float literal: an optional sign, a
mantissa numerator over ten to the number of fraction digits, scaled by ten
to the exponent. -/
def pyFloatVal (neg : Bool) (num scale : Nat) (e : Int) : ℚ :=
  let n : Int := if neg then -(num : Int) else (num : Int)
  if 0 ≤ e then Rat.divInt (n * 10 ^ e.toNat) (10 ^ scale)
  else Rat.divInt n (10 ^ scale * 10 ^ (-e).toNat)

/-- Embedding of the Python float constructor applied to a string, as in
float applied to the metadata time value (judge.py line 173): strip
whitespace, optional sign, decimal mantissa, optional exponent; anything
else raises ValueError.  Values are exact rationals; the inf, nan and
digit-underscore forms accepted by Python are not modelled. -/
def pyFloat (s : String) : Except PyError ℚ :=
  let s0 := parseSign (stripChars s.data)
  match parseMantissa s0.2 with
  | none => .error .valueError
  | some m =>
    match parseExponent m.2 with
    | none => .error .valueError
    | some e =>
      if e.2 = [] then .ok (pyFloatVal s0.1 m.1.1 m.1.2 e.1)
      else .error .valueError

/-- Embedding of the Python int constructor applied to a string, as in int
applied to the metadata max-rss value (judge.py line 174): strip whitespace,
optional sign, decimal digits only; anything else raises ValueError. -/
def pyInt (s : String) : Except PyError Int :=
  let s0 := parseSign (stripChars s.data)
  let s1 := spanDigits s0.2
  if s1.1 = [] ∨ s1.2 ≠ [] then .error .valueError
  else .ok (if s0.1 then -(natOfDigits s1.1 : Int) else (natOfDigits s1.1 : Int))

/-- Assignment into a Python dict: replace the value of an existing key,
otherwise append the new binding. -/
def dictInsert : List (String × String) → String → String → List (String × String)
  | [], k, v => [(k, v)]
  | (k0, v0) :: rest, k, v =>
    if k0 = k then (k, v) :: rest else (k0, v0) :: dictInsert rest k v

/-- Python dict indexing: KeyError when the key is absent. -/
def dictGet (md : List (String × String)) (k : String) : Except PyError String :=
  match List.lookup k md with
  | some v => .ok v
  | none => .error .keyError

/-- Embedding of the metadata sidecar parse loop over a list of lines
(judge.py lines 148-154): strip each line, skip empty lines, split the rest
on the colon character and unpack into exactly two parts; any other number
of parts raises ValueError at the unpacking. -/
def parseMetadataLines : List String → List (String × String) → Except PyError (List (String × String))
  | [], acc => .ok acc
  | l :: ls, acc =>
    let line := pyStrip l
    if line = "" then parseMetadataLines ls acc
    else
      match splitOnSep ':' line.data with
      | [a, b] => parseMetadataLines ls (dictInsert acc ⟨a⟩ ⟨b⟩)
      | _ => .error .valueError

/-- Parse the whole metadata sidecar file (judge.py lines 148-154).  The
readlines call is modelled by splitting the contents on newlines; the strip
of each line removes the terminators exactly as the source does. -/
def parseMetadata (content : String) : Except PyError (List (String × String)) :=
  parseMetadataLines (readLines content) []

/-- Embedding of the verdict evaluation for one test case (judge.py lines
156-166): start from the output comparison of stripped stdout against the
stripped expected output, then let a status key, when present, override it;
the branch for an unrecognized status evaluates Verdict.SE, an attribute
lookup that misses. -/
def evaluateVerdict (stdout expected : String) (md : List (String × String)) : Except PyError Verdict :=
  let verdict := if pyStrip stdout ≠ pyStrip expected then Verdict.WA else Verdict.AC
  match List.lookup "status" md with
  | none => .ok verdict
  | some status =>
    if status = "RE" ∨ status = "SG" ∨ status = "XX" then .ok Verdict.RE
    else if status = "TO" then .ok Verdict.TLE
    else verdictAttr "SE"

/-- Embedding of one iteration of the test loop after the run invocation
(judge.py lines 148-174): parse the metadata file, compute the verdict, then
build the TestCaseResult, reading and converting the time and max-rss
metadata entries in source order. -/
def runTestCase (tc : TestCase) (ro : RunOutcome) : Except PyError TestCaseResult :=
  (parseMetadata ro.metadataFile).bind fun md =>
  (evaluateVerdict ro.stdout tc.output md).bind fun verdict =>
  (dictGet md "time").bind fun timeStr =>
  (pyFloat timeStr).bind fun t =>
  (dictGet md "max-rss").bind fun rssStr =>
  (pyInt rssStr).bind fun rss =>
  .ok { subtask := tc.subtask
        test_case := tc.test_case
        verdict := verdict
        score := if verdict = Verdict.AC then 100 else 0
        time_used := t
        memory_used := Rat.divInt rss 1024 }

/-- Embedding of the test loop (judge.py lines 133-176): run the test cases
strictly in order, one isolate --run invocation each; an exception raised
while evaluating a test case propagates immediately, ending the loop. -/
def runLoop (env : JudgeEnv) : Nat → List TestCase → List Event × Except PyError (List TestCaseResult)
  | _, [] => ([], .ok [])
  | i, tc :: rest =>
    match runTestCase tc (env.runs i) with
    | .error e => ([Event.runTest i], .error e)
    | .ok r =>
      let rec0 := runLoop env (i + 1) rest
      (Event.runTest i :: rec0.1,
       match rec0.2 with
       | .ok l => .ok (r :: l)
       | .error e => .error e)

/-- Embedding of the tail of _judge_impl after the compile step (judge.py
lines 131-176): fetch the task info, then run the test loop over its test
cases, wrapping the list of results or propagating the exception. -/
def fetchAndLoop (env : JudgeEnv) (tr : List Event) : List Event × Except PyError JudgeResult :=
  match env.taskInfo with
  | .error e => (tr, .error e)
  | .ok ti =>
    let loop := runLoop env 0 ti.test_cases
    (tr ++ loop.1,
     match loop.2 with
     | .ok l => .ok (.results l)
     | .error e => .error e)

/-- Embedding of _judge_impl (judge.py lines 78-176): write the code file,
initialise the sandbox (a nonzero exit evaluates Verdict.SE as return
value), compile when the language has a compile step (a nonzero exit
returns CE), copy the artifact, fetch the task info, then run the test
loop.  The pair holds the trace of observable actions and the returned
value or the exception that propagates. -/
def _judge_impl (lang : Language) (env : JudgeEnv) : List Event × Except PyError JudgeResult :=
  let tr0 := [Event.writeCode, Event.initCall]
  if env.initReturncode ≠ 0 then
    match verdictAttr "SE" with
    | .error e => (tr0, .error e)
    | .ok v => (tr0, .ok (.verdict v))
  else
    if lang.hasCompile then
      if env.compileReturncode ≠ 0 then
        (tr0 ++ [Event.compileCall], .ok (.verdict Verdict.CE))
      else
        fetchAndLoop env (tr0 ++ [Event.compileCall, Event.copyToSandbox, Event.fetchTaskInfo])
    else
      fetchAndLoop env (tr0 ++ [Event.copyToSandbox, Event.fetchTaskInfo])

instance {ε α : Type} [DecidableEq ε] [DecidableEq α] : DecidableEq (Except ε α) := fun a b =>
  match a, b with
  | .error x, .error y =>
    if h : x = y then isTrue (congrArg Except.error h)
    else isFalse (fun hh => h (by cases hh; rfl))
  | .error _, .ok _ => isFalse (fun hh => Except.noConfusion hh)
  | .ok _, .error _ => isFalse (fun hh => Except.noConfusion hh)
  | .ok x, .ok y =>
    if h : x = y then isTrue (congrArg Except.ok h)
    else isFalse (fun hh => h (by cases hh; rfl))

/-- Outcome of one call of judge: the trace of observable actions and the
verdict value as it stands at the reporting step, or the exception that
propagates out of judge. -/
structure JudgeOutcome where
  trace : List Event
  result : Except PyError JudgeResult
deriving DecidableEq

/-- Embedding of judge (judge.py lines 45-75): call _judge_impl, then run
sandbox cleanup and, when cleanup exits nonzero, evaluate Verdict.SE (an
attribute lookup that misses).  There is no exception handler: an exception
from _judge_impl propagates before the cleanup invocation is reached.  The
thread registry calls and the report post are outside the model. -/
def judge (lang : Language) (env : JudgeEnv) : JudgeOutcome :=
  let impl := _judge_impl lang env
  match impl.2 with
  | .error e => ⟨impl.1, .error e⟩
  | .ok r =>
    let tr := impl.1 ++ [Event.cleanupCall]
    if env.cleanupReturncode ≠ 0 then
      match verdictAttr "SE" with
      | .error e => ⟨tr, .error e⟩
      | .ok v => ⟨tr, .ok (.verdict v)⟩
    else ⟨tr, .ok r⟩

/-! Concrete environments used to exercise the embedding. -/

/-- A task with a single test case, taken from the debug fixture. -/
def tiOne : TaskInfo :=
  { debugTaskInfo with test_cases := [⟨1, 1, "1 1\n", "Quadrant I\n"⟩] }

/-- Environment of a fully successful judging operation: init, compile and
cleanup exit 0, the task has one test case, and its run prints the expected
output with a normal metadata sidecar. -/
def envHappy : JudgeEnv :=
  { initReturncode := 0
    initStdout := "/var/local/lib/isolate/0\n"
    compileReturncode := 0
    taskInfo := .ok tiOne
    runs := fun _ => ⟨"Quadrant I\n", "time:0.013\nmax-rss:2344\n"⟩
    cleanupReturncode := 0 }

/-- The test case result produced for the single test case of envHappy. -/
def resHappy : TestCaseResult :=
  ⟨1, 1, Verdict.AC, 100, mkRat 13 1000, mkRat 2344 1024⟩

/-- Environment where fetching the task info raises (the frontend request
fails), after a successful sandbox init. -/
def envFetchFails : JudgeEnv :=
  { envHappy with taskInfo := .error .httpError }

/-- Environment identical to envHappy except that the cleanup invocation
exits nonzero. -/
def envCleanupFails : JudgeEnv :=
  { envHappy with cleanupReturncode := 1 }

/-- Environment identical to envHappy except that the compile invocation
exits nonzero. -/
def envCompileFails : JudgeEnv :=
  { envHappy with compileReturncode := 1 }

/-- Environment identical to envHappy except that the sandbox init
invocation exits nonzero. -/
def envInitFails : JudgeEnv :=
  { envHappy with initReturncode := 1 }

/-- A task with two test cases, taken from the debug fixture. -/
def tiTwo : TaskInfo :=
  { debugTaskInfo with
      test_cases := [⟨1, 1, "1 1\n", "Quadrant I\n"⟩, ⟨1, 2, "-50 -33\n", "Quadrant III\n"⟩] }

/-- Environment with two test cases; the first run reports an unrecognized
status value ZZ in its metadata sidecar, the second is normal. -/
def envTwoCases : JudgeEnv :=
  { envHappy with
      taskInfo := .ok tiTwo
      runs := fun i =>
        if i = 0 then ⟨"Quadrant I\n", "time:0.01\nmax-rss:100\nstatus:ZZ\n"⟩
        else ⟨"Quadrant III\n", "time:0.01\nmax-rss:100\n"⟩ }

/-! Helper lemmas shared by the claim theorems. -/

/-- The attribute lookup for SE on the Verdict enum always misses. -/
lemma verdictAttr_SE : verdictAttr "SE" = .error .attributeError := rfl

/-- Success of dict indexing is exactly a successful lookup. -/
lemma dictGet_ok {md : List (String × String)} {k v : String} :
    dictGet md k = .ok v ↔ List.lookup k md = some v := by
  unfold dictGet
  cases h : List.lookup k md <;> simp [h]

/-- Sequencing in the Except monad succeeds exactly when both steps do. -/
lemma bind_ok {α β : Type} {x : Except PyError α} {f : α → Except PyError β} {b : β} :
    x.bind f = .ok b ↔ ∃ a, x = .ok a ∧ f a = .ok b := by
  cases x <;> simp [Except.bind]

/-- Sequencing in the Except monad propagates an error in the first step. -/
lemma bind_error {α β : Type} {x : Except PyError α} {f : α → Except PyError β} {e : PyError}
    (h : x = .error e) : x.bind f = .error e := by
  rw [h]; rfl

/-- Unfolding of the test loop on the empty list of test cases. -/
lemma runLoop_nil (env : JudgeEnv) (i : Nat) : runLoop env i [] = ([], .ok []) := rfl

/-- Unfolding of the test loop on a nonempty list of test cases. -/
lemma runLoop_cons (env : JudgeEnv) (i : Nat) (tc : TestCase) (rest : List TestCase) :
    runLoop env i (tc :: rest) =
      match runTestCase tc (env.runs i) with
      | .error e => ([Event.runTest i], .error e)
      | .ok r =>
        (Event.runTest i :: (runLoop env (i + 1) rest).1,
         match (runLoop env (i + 1) rest).2 with
         | .ok l => .ok (r :: l)
         | .error e => .error e) := by
  rfl

/-- Every event emitted by the test loop is a run event. -/
lemma runLoop_events (env : JudgeEnv) :
    ∀ (cases : List TestCase) (i : Nat), ∀ e ∈ (runLoop env i cases).1, ∃ j, e = Event.runTest j := by
  intro cases
  induction cases with
  | nil => intro i e he; simp [runLoop] at he
  | cons tc rest ih =>
    intro i e he
    cases hrun : runTestCase tc (env.runs i) with
    | error err =>
      simp [runLoop, hrun] at he
      exact ⟨i, he⟩
    | ok r =>
      simp [runLoop, hrun] at he
      rcases he with he | he
      · exact ⟨i, he⟩
      · exact ih (i + 1) e he

/-- The test loop never emits the cleanup event. -/
lemma runLoop_no_cleanup (env : JudgeEnv) (cases : List TestCase) (i : Nat) :
    Event.cleanupCall ∉ (runLoop env i cases).1 := by
  intro h
  rcases runLoop_events env cases i _ h with ⟨j, hj⟩
  exact Event.noConfusion hj

/-- fetchAndLoop adds no cleanup event to a cleanup-free trace. -/
lemma fetchAndLoop_no_cleanup (env : JudgeEnv) (tr : List Event)
    (h : Event.cleanupCall ∉ tr) : Event.cleanupCall ∉ (fetchAndLoop env tr).1 := by
  unfold fetchAndLoop
  cases ht : env.taskInfo with
  | error e => simpa using h
  | ok ti =>
    intro hmem
    simp at hmem
    rcases hmem with hmem | hmem
    · exact h hmem
    · exact runLoop_no_cleanup env ti.test_cases 0 hmem

/-- The trace of _judge_impl never contains the cleanup event. -/
lemma impl_no_cleanup (lang : Language) (env : JudgeEnv) :
    Event.cleanupCall ∉ (_judge_impl lang env).1 := by
  unfold _judge_impl
  by_cases h0 : env.initReturncode ≠ 0
  · rw [if_pos h0, verdictAttr_SE]
    simp
  · rw [if_neg h0]
    cases hc : lang.hasCompile with
    | true =>
      by_cases hcc : env.compileReturncode ≠ 0
      · simp [hcc]
      · simp only [hcc, if_false]
        exact fetchAndLoop_no_cleanup env _ (by simp)
    | false =>
      simp only [Bool.false_eq_true, if_false]
      exact fetchAndLoop_no_cleanup env _ (by simp)

/-- When _judge_impl returns normally, the trace of judge is that of
_judge_impl followed by exactly one cleanup invocation. -/
lemma judge_trace_ok (lang : Language) (env : JudgeEnv) (r : JudgeResult)
    (h : (_judge_impl lang env).2 = .ok r) :
    (judge lang env).trace = (_judge_impl lang env).1 ++ [Event.cleanupCall] := by
  unfold judge
  dsimp only
  rw [h]
  by_cases hcl : env.cleanupReturncode ≠ 0 <;>
    simp [hcl, verdictAttr_SE]

/-- When _judge_impl raises, the exception propagates out of judge before
the cleanup invocation: the trace of judge is exactly that of _judge_impl. -/
lemma judge_trace_error (lang : Language) (env : JudgeEnv) (e : PyError)
    (h : (_judge_impl lang env).2 = .error e) :
    (judge lang env).trace = (_judge_impl lang env).1 := by
  unfold judge
  dsimp only
  rw [h]

/-- When the test loop completes, it yields one result per test case, in
order, and the result at position j comes from the run at position j. -/
lemma runLoop_ok (env : JudgeEnv) :
    ∀ (cases : List TestCase) (i : Nat) (l : List TestCaseResult),
      (runLoop env i cases).2 = .ok l →
      l.length = cases.length ∧
      ∀ j (hj : j < cases.length) (hl : j < l.length),
        runTestCase (cases.get ⟨j, hj⟩) (env.runs (i + j)) = .ok (l.get ⟨j, hl⟩) := by
  intro cases
  induction cases with
  | nil =>
    intro i l h
    rw [runLoop_nil] at h
    simp at h
    subst h
    simp
  | cons tc rest ih =>
    intro i l h
    rw [runLoop_cons] at h
    cases hrun : runTestCase tc (env.runs i) with
    | error e => rw [hrun] at h; simp at h
    | ok r =>
      rw [hrun] at h
      dsimp only at h
      cases hrec : (runLoop env (i + 1) rest).2 with
      | error e => rw [hrec] at h; simp at h
      | ok l2 =>
        rw [hrec] at h
        simp at h
        subst h
        rcases ih (i + 1) l2 hrec with ⟨hlen, hget⟩
        constructor
        · simp [hlen]
        · intro j hj hl
          cases j with
          | zero => simpa using hrun
          | succ k =>
            have hj2 : k < rest.length := by simpa using hj
            have hl2 : k < l2.length := by simpa using hl
            have hk := hget k hj2 hl2
            have harith : i + (k + 1) = (i + 1) + k := by omega
            simp only [List.get_cons_succ, harith]
            exact hk

/-- The score field of every result built by runTestCase is 100 when the
verdict is AC and 0 otherwise. -/
lemma runTestCase_score (tc : TestCase) (ro : RunOutcome) (r : TestCaseResult)
    (h : runTestCase tc ro = .ok r) :
    r.score = if r.verdict = Verdict.AC then 100 else 0 := by
  unfold runTestCase at h
  rcases bind_ok.mp h with ⟨md, hmd, h⟩
  rcases bind_ok.mp h with ⟨verdict, hv, h⟩
  rcases bind_ok.mp h with ⟨timeStr, htime, h⟩
  rcases bind_ok.mp h with ⟨t, ht, h⟩
  rcases bind_ok.mp h with ⟨rssStr, hrssStr, h⟩
  rcases bind_ok.mp h with ⟨n, hrss, h⟩
  simp at h
  subst h
  rfl

/-- The time and memory fields of every result built by runTestCase come
from the time and max-rss entries of the parsed metadata sidecar: time_used
is the float parse of the time value and memory_used is the int parse of
the max-rss value divided by 1024. -/
lemma runTestCase_fields (tc : TestCase) (ro : RunOutcome) (r : TestCaseResult)
    (h : runTestCase tc ro = .ok r) :
    ∃ md timeStr rssStr n,
      parseMetadata ro.metadataFile = .ok md ∧
      List.lookup "time" md = some timeStr ∧
      pyFloat timeStr = .ok r.time_used ∧
      List.lookup "max-rss" md = some rssStr ∧
      pyInt rssStr = .ok n ∧
      r.memory_used = (n : ℚ) / 1024 := by
  unfold runTestCase at h
  rcases bind_ok.mp h with ⟨md, hmd, h⟩
  rcases bind_ok.mp h with ⟨verdict, hv, h⟩
  rcases bind_ok.mp h with ⟨timeStr, htime, h⟩
  rcases bind_ok.mp h with ⟨t, ht, h⟩
  rcases bind_ok.mp h with ⟨rssStr, hrssStr, h⟩
  rcases bind_ok.mp h with ⟨n, hrss, h⟩
  simp at h
  subst h
  exact ⟨md, timeStr, rssStr, n, hmd, dictGet_ok.mp htime, ht, dictGet_ok.mp hrssStr, hrss,
    by rw [Rat.divInt_eq_div]; norm_num⟩

/-- When fetchAndLoop yields a list of results, the task info was fetched
and the test loop over its test cases completed with that list. -/
lemma fetchAndLoop_results (env : JudgeEnv) (tr : List Event) (l : List TestCaseResult)
    (h : (fetchAndLoop env tr).2 = .ok (.results l)) :
    ∃ ti, env.taskInfo = .ok ti ∧ (runLoop env 0 ti.test_cases).2 = .ok l := by
  unfold fetchAndLoop at h
  cases ht : env.taskInfo with
  | error e => rw [ht] at h; simp at h
  | ok ti =>
    rw [ht] at h
    cases hloop : (runLoop env 0 ti.test_cases).2 with
    | error e => simp only at h; rw [hloop] at h; simp at h
    | ok l2 =>
      simp only at h
      rw [hloop] at h
      simp at h
      exact ⟨ti, rfl, by rw [hloop, h]⟩

/-- When _judge_impl yields a list of results, the task info was fetched
and the test loop over its test cases completed with that list. -/
lemma impl_results (lang : Language) (env : JudgeEnv) (l : List TestCaseResult)
    (h : (_judge_impl lang env).2 = .ok (.results l)) :
    ∃ ti, env.taskInfo = .ok ti ∧ (runLoop env 0 ti.test_cases).2 = .ok l := by
  unfold _judge_impl at h
  split at h
  · rw [verdictAttr_SE] at h
    dsimp only at h
    simp at h
  · split at h
    · split at h
      · simp at h
      · exact fetchAndLoop_results env _ l h
    · exact fetchAndLoop_results env _ l h

/-- The split of a character list is never the empty list of chunks. -/
lemma splitOnSep_ne_nil (sep : Char) (cs : List Char) : splitOnSep sep cs ≠ [] := by
  cases cs with
  | nil => simp [splitOnSep]
  | cons c rest =>
    by_cases hc : c = sep
    · simp [splitOnSep, hc]
    · cases hs : splitOnSep sep rest with
      | nil => simp [splitOnSep, hc, hs]
      | cons h t => simp [splitOnSep, hc, hs]

/-- Splitting on a separator yields one more chunk than the number of
occurrences of the separator. -/
lemma splitOnSep_length (sep : Char) (cs : List Char) :
    (splitOnSep sep cs).length = cs.count sep + 1 := by
  induction cs with
  | nil => rfl
  | cons c rest ih =>
    by_cases hc : c = sep
    · subst hc
      simp [splitOnSep, ih, List.count_cons]
    · cases hs : splitOnSep sep rest with
      | nil => exact absurd hs (splitOnSep_ne_nil sep rest)
      | cons h t =>
        rw [hs] at ih
        simp only [splitOnSep, if_neg hc, hs]
        simp only [List.length_cons] at ih ⊢
        rw [List.count_cons]
        simp [hc]
        omega

/-- Unfolding of the metadata parse loop on a nonempty list of lines. -/
lemma parseMetadataLines_cons (l : String) (ls : List String) (acc : List (String × String)) :
    parseMetadataLines (l :: ls) acc =
      (if pyStrip l = "" then parseMetadataLines ls acc
       else
        match splitOnSep ':' (pyStrip l).data with
        | [a, b] => parseMetadataLines ls (dictInsert acc ⟨a⟩ ⟨b⟩)
        | _ => .error .valueError) := by
  rfl

/-- The metadata parse loop succeeds exactly when every line that is
nonempty after stripping splits on the colon character into exactly two
parts, independently of the accumulated dict. -/
lemma parseMetadataLines_ok_iff :
    ∀ (ls : List String) (acc : List (String × String)),
      (∃ d, parseMetadataLines ls acc = .ok d) ↔
        ∀ l ∈ ls, pyStrip l = "" ∨ (splitOnSep ':' (pyStrip l).data).length = 2 := by
  intro ls
  induction ls with
  | nil => intro acc; simp [parseMetadataLines]
  | cons l ls ih =>
    intro acc
    rw [parseMetadataLines_cons]
    by_cases he : pyStrip l = ""
    · rw [if_pos he, ih acc]
      constructor
      · intro hall l2 hl2
        rcases List.mem_cons.mp hl2 with h1 | h1
        · subst h1; exact Or.inl he
        · exact hall l2 h1
      · intro hall l2 hl2
        exact hall l2 (List.mem_cons_of_mem _ hl2)
    · rw [if_neg he]
      cases hs : splitOnSep ':' (pyStrip l).data with
      | nil =>
        dsimp only
        constructor
        · rintro ⟨d, hd⟩
          exact Except.noConfusion hd
        · intro hall
          rcases hall l (List.mem_cons_self l ls) with h1 | h1
          · exact absurd h1 he
          · rw [hs] at h1; simp at h1
      | cons a tail =>
        cases tail with
        | nil =>
          dsimp only
          constructor
          · rintro ⟨d, hd⟩
            exact Except.noConfusion hd
          · intro hall
            rcases hall l (List.mem_cons_self l ls) with h1 | h1
            · exact absurd h1 he
            · rw [hs] at h1; simp at h1
        | cons b tail2 =>
          cases tail2 with
          | nil =>
            dsimp only
            rw [ih (dictInsert acc ⟨a⟩ ⟨b⟩)]
            constructor
            · intro hall l2 hl2
              rcases List.mem_cons.mp hl2 with h1 | h1
              · subst h1
                right
                rw [hs]
                rfl
              · exact hall l2 h1
            · intro hall l2 hl2
              exact hall l2 (List.mem_cons_of_mem _ hl2)
          | cons c tail3 =>
            dsimp only
            constructor
            · rintro ⟨d, hd⟩
              exact Except.noConfusion hd
            · intro hall
              rcases hall l (List.mem_cons_self l ls) with h1 | h1
              · exact absurd h1 he
              · rw [hs] at h1; simp at h1

/-! Claim theorems. -/

/-- Claim C1: for every test case, metadata status RE, SG or XX gives RE,
TO gives TLE, an absent status gives AC exactly when the stripped stdout
equals the stripped expected output and WA otherwise, and a present status
always takes precedence over the output comparison.  All of that holds,
but the remaining case fails on the code: a present status outside the
recognized set does not give verdict SE, because judge.py line 166
evaluates Verdict.SE and the Verdict enum has no member SE, so the
evaluation raises AttributeError and no verdict is produced, as the last
two conjuncts show at the failing input status ZZ. -/
theorem C1_status_precedence_and_missing_SE :
    evaluateVerdict "Quadrant I\n" "Quadrant I\n" [("status", "RE")] = .ok Verdict.RE
  ∧ evaluateVerdict "Quadrant I\n" "Quadrant I\n" [("status", "SG")] = .ok Verdict.RE
  ∧ evaluateVerdict "Quadrant I\n" "Quadrant I\n" [("status", "XX")] = .ok Verdict.RE
  ∧ evaluateVerdict "Quadrant I\n" "Quadrant I\n" [("status", "TO")] = .ok Verdict.TLE
  ∧ evaluateVerdict "Quadrant I\n" " Quadrant I \n" [("time", "0.013")] = .ok Verdict.AC
  ∧ evaluateVerdict "Quadrant 1\n" "Quadrant I\n" [("time", "0.013")] = .ok Verdict.WA
  ∧ evaluateVerdict "Quadrant I\n" "Quadrant I\n" [("status", "ZZ")] = .error .attributeError
  ∧ runTestCase ⟨1, 1, "1 1\n", "Quadrant I\n"⟩
      ⟨"Quadrant I\n", "time:0.013\nmax-rss:2344\nstatus:ZZ\n"⟩ = .error .attributeError := by
  decide

/-- Claim C2 counterexample: the claim that cleanup is invoked on any
exception path after a successful sandbox init fails on the code: judge has
no exception handler, so when fetching the task info raises after init
succeeded, the exception propagates and the cleanup invocation is never
reached. -/
theorem C2_counterexample_exception_skips_cleanup :
    envFetchFails.initReturncode = 0
  ∧ (judge Language.py envFetchFails).result = .error .httpError
  ∧ (judge Language.py envFetchFails).trace.count Event.cleanupCall = 0 := by
  decide

/-- Claim C2 amended: the cleanup step is invoked exactly once on every
path on which the judging logic returns normally (full success and compile
failure); when the judging logic raises an exception, cleanup is not
invoked at all. -/
theorem C2_amended_cleanup_iff_normal_return (lang : Language) (env : JudgeEnv) :
    ((∃ r, (_judge_impl lang env).2 = .ok r) →
      (judge lang env).trace.count Event.cleanupCall = 1)
  ∧ ((∃ e, (_judge_impl lang env).2 = .error e) →
      (judge lang env).trace.count Event.cleanupCall = 0) := by
  constructor
  · rintro ⟨r, h⟩
    rw [judge_trace_ok lang env r h, List.count_append,
        List.count_eq_zero.mpr (impl_no_cleanup lang env)]
    rfl
  · rintro ⟨e, h⟩
    rw [judge_trace_error lang env e h]
    exact List.count_eq_zero.mpr (impl_no_cleanup lang env)

/-- Claim C2 amended, witness: on a fully successful judging operation the
cleanup invocation appears exactly once in the trace. -/
theorem C2_amended_witness :
    (judge Language.py envHappy).trace.count Event.cleanupCall = 1 :=
  (C2_amended_cleanup_iff_normal_return Language.py envHappy).1
    ⟨.results [resHappy], by decide⟩

/-- Claim C3: the claim fails on the code: when the cleanup invocation
exits nonzero after a fully successful grading run, judge.py line 55
evaluates Verdict.SE, which raises AttributeError because the Verdict enum
has no member SE; the final outcome is the propagating exception, not the
terminal verdict SE. -/
theorem C3_cleanup_failure_raises_instead_of_SE :
    (_judge_impl Language.py envCleanupFails).2 = .ok (.results [resHappy])
  ∧ (judge Language.py envCleanupFails).trace.count Event.cleanupCall = 1
  ∧ (judge Language.py envCleanupFails).result = .error .attributeError := by
  decide

/-- Claim C4: for every submission in a compiled language, if the compile
invocation exits nonzero (after a successful sandbox init), _judge_impl
returns exactly the single terminal verdict CE, and its trace ends at the
compile invocation: no test case is run and no TestCaseResult is
produced. -/
theorem C4_compile_failure_single_CE (lang : Language) (env : JudgeEnv)
    (hcomp : lang.hasCompile = true) (hinit : env.initReturncode = 0)
    (hcc : env.compileReturncode ≠ 0) :
    _judge_impl lang env =
      ([Event.writeCode, Event.initCall, Event.compileCall], .ok (.verdict Verdict.CE)) := by
  unfold _judge_impl
  simp [hinit, hcomp, hcc]

/-- Claim C4 witness: a cpp submission whose compiler exits 1 yields the
single CE verdict with no run events. -/
theorem C4_witness :
    Language.cpp.hasCompile = true
  ∧ envCompileFails.initReturncode = 0
  ∧ envCompileFails.compileReturncode ≠ 0
  ∧ _judge_impl Language.cpp envCompileFails =
      ([Event.writeCode, Event.initCall, Event.compileCall], .ok (.verdict Verdict.CE)) :=
  ⟨rfl, rfl, by decide,
   C4_compile_failure_single_CE Language.cpp envCompileFails rfl rfl (by decide)⟩

/-- Claim C5: the claim fails on the code: when the sandbox init invocation
exits nonzero, judge.py line 93 evaluates Verdict.SE as the return value,
which raises AttributeError because the Verdict enum has no member SE; no
compilation and no test execution is attempted, but the judging logic
raises instead of returning the single terminal verdict SE. -/
theorem C5_init_failure_raises_instead_of_SE :
    _judge_impl Language.cpp envInitFails =
      ([Event.writeCode, Event.initCall], .error .attributeError) := by
  decide

/-- Claim C6: the claim fails on the code: the members of the Verdict enum are
exactly AC, CE, WA, RE, TLE and IE, serialized to ac, ce, wa, re, tle and
ie; there is no member SE, and the attribute lookup for SE that judge.py
performs raises AttributeError. -/
theorem C6_verdict_enum_has_IE_not_SE :
    verdictMembers.map Prod.fst = ["AC", "CE", "WA", "RE", "TLE", "IE"]
  ∧ verdictMembers.map (fun p => p.2.value) = ["ac", "ce", "wa", "re", "tle", "ie"]
  ∧ verdictAttr "SE" = .error .attributeError := by
  decide

/-- Claim C7: every TestCaseResult in a list returned by the test loop has
score 100 when its verdict is AC and score 0 otherwise. -/
theorem C7_score_iff_AC (lang : Language) (env : JudgeEnv) (l : List TestCaseResult)
    (h : (_judge_impl lang env).2 = .ok (.results l)) :
    ∀ r ∈ l, r.score = if r.verdict = Verdict.AC then 100 else 0 := by
  rcases impl_results lang env l h with ⟨ti, _, hloop⟩
  intro r hr
  rcases List.mem_iff_get.mp hr with ⟨⟨j, hl⟩, rfl⟩
  rcases runLoop_ok env ti.test_cases 0 l hloop with ⟨hlen, hget⟩
  have hj : j < ti.test_cases.length := by rw [← hlen]; exact hl
  exact runTestCase_score _ _ _ (hget j hj hl)

/-- Claim C7 witness: on the successful single-test-case run the produced
result has verdict AC and score 100. -/
theorem C7_witness :
    resHappy.score = if resHappy.verdict = Verdict.AC then 100 else 0 :=
  C7_score_iff_AC Language.py envHappy [resHappy] (by decide) resHappy (by simp)

/-- Claim C8: the claim fails on the code: a test case whose metadata
carries an unrecognized status is meant to get verdict SE without stopping
the loop, but judge.py line 166 evaluates the missing member Verdict.SE,
so the loop aborts with AttributeError after the first run: with two test
cases the trace shows the second is never run and no result list is
produced at all. -/
theorem C8_unrecognized_status_aborts_loop :
    envTwoCases.taskInfo = .ok tiTwo
  ∧ tiTwo.test_cases.length = 2
  ∧ _judge_impl Language.py envTwoCases =
      ([Event.writeCode, Event.initCall, Event.copyToSandbox, Event.fetchTaskInfo,
        Event.runTest 0], .error .attributeError) := by
  decide

/-- Claim C9: every TestCaseResult at position j of a list returned by the
test loop draws its time_used from the float parse of the time entry and
its memory_used from the int parse of the max-rss entry divided by 1024,
both read from the metadata sidecar left by the j-th run. -/
theorem C9_time_and_memory_from_metadata (lang : Language) (env : JudgeEnv)
    (l : List TestCaseResult) (h : (_judge_impl lang env).2 = .ok (.results l)) :
    ∀ j (hl : j < l.length), ∃ md timeStr rssStr n,
      parseMetadata ((env.runs j).metadataFile) = .ok md ∧
      List.lookup "time" md = some timeStr ∧
      pyFloat timeStr = .ok ((l.get ⟨j, hl⟩).time_used) ∧
      List.lookup "max-rss" md = some rssStr ∧
      pyInt rssStr = .ok n ∧
      (l.get ⟨j, hl⟩).memory_used = (n : ℚ) / 1024 := by
  intro j hl
  rcases impl_results lang env l h with ⟨ti, _, hloop⟩
  rcases runLoop_ok env ti.test_cases 0 l hloop with ⟨hlen, hget⟩
  have hj : j < ti.test_cases.length := by rw [← hlen]; exact hl
  have hk := hget j hj hl
  rw [Nat.zero_add] at hk
  exact runTestCase_fields _ _ _ hk

/-- Claim C9 witness: on the successful single-test-case run, time_used is
the parse of the time entry 0.013 and memory_used is the max-rss entry 2344
divided by 1024. -/
theorem C9_witness :
    ∃ md timeStr rssStr n,
      parseMetadata ((envHappy.runs 0).metadataFile) = .ok md ∧
      List.lookup "time" md = some timeStr ∧
      pyFloat timeStr = .ok resHappy.time_used ∧
      List.lookup "max-rss" md = some rssStr ∧
      pyInt rssStr = .ok n ∧
      resHappy.memory_used = (n : ℚ) / 1024 :=
  C9_time_and_memory_from_metadata Language.py envHappy [resHappy] (by decide) 0 (by decide)

/-- Claim C10: the metadata sidecar parser succeeds exactly on files where
every line that is nonempty after stripping splits on the colon into
exactly two parts, that is, contains exactly one colon; and when parsing
fails, the exception propagates out of the test-case evaluation, so no
verdict is produced for that test case. -/
theorem C10_metadata_parser_totality :
    (∀ content : String,
      (∃ d, parseMetadata content = .ok d) ↔
        ∀ line ∈ readLines content,
          pyStrip line = "" ∨ List.count ':' (pyStrip line).data = 1)
  ∧ (∀ (tc : TestCase) (ro : RunOutcome) (e : PyError),
      parseMetadata ro.metadataFile = .error e → runTestCase tc ro = .error e) := by
  constructor
  · intro content
    constructor
    · intro hd line hline
      rcases (parseMetadataLines_ok_iff (readLines content) []).mp hd line hline with h1 | h1
      · exact Or.inl h1
      · right
        have hlen := splitOnSep_length ':' (pyStrip line).data
        omega
    · intro hall
      apply (parseMetadataLines_ok_iff (readLines content) []).mpr
      intro line hline
      rcases hall line hline with h1 | h1
      · exact Or.inl h1
      · right
        have hlen := splitOnSep_length ':' (pyStrip line).data
        omega
  · intro tc ro e he
    unfold runTestCase
    exact bind_error he

/-- Claim C10 witness: a well-formed sidecar parses, and a sidecar with a
line holding two colons makes the test-case evaluation fail with
ValueError. -/
theorem C10_witness :
    (∃ d, parseMetadata "time:0.013\nmax-rss:2344\n" = .ok d)
  ∧ runTestCase ⟨1, 1, "", ""⟩ ⟨"", "a:b:c\n"⟩ = .error .valueError :=
  ⟨(C10_metadata_parser_totality.1 "time:0.013\nmax-rss:2344\n").mpr (by decide),
   C10_metadata_parser_totality.2 ⟨1, 1, "", ""⟩ ⟨"", "a:b:c\n"⟩ .valueError (by decide)⟩

end Wykoj
